import Mathlib

/-!
Verification development for the PAL math-pipeline chatbot.

The source is a single React component file containing three core pieces:
`PALInterpreter` (the numeric evaluator), `OllamaService` (math-query
classifier, LLM gateway request construction, and the 3-stage pipeline
orchestrator `solveWithPipeline`), and the UI component (out of scope).

This file shallowly embeds those pieces:
- JavaScript numbers are modelled as exact rationals extended with the IEEE
  special values Infinity, -Infinity and NaN (`JSNum`); binary-double
  rounding is not modelled.
- The dynamic `Function('"use strict"; return (expr)')()` call of the
  floating-point path is modelled by `fpEval`, a recursive-descent evaluator
  of the arithmetic fragment (numeric literals, parentheses, unary plus and
  minus, the four binary operators); strings outside that fragment evaluate to
  an error, as they do in strict-mode Node (ReferenceError / SyntaxError).
- JavaScript regexes used by the source are modelled by explicit leftmost
  scanning functions over character lists.
-/

/-- The character class `[0-9+\-*/().]` used by the stage-1 sanitizer
(`replace(/[^0-9+\-*/().]/g, '')`). -/
def isArithChar (c : Char) : Bool :=
  c ∈ ['0', '1', '2', '3', '4', '5', '6', '7', '8', '9',
       '+', '-', '*', '/', '(', ')', '.']

/-- Model of `expression.trim().replace(/\s+/g, '')` in
`executeMathExpression`: the global `\s+` removal deletes every whitespace
character, which subsumes the leading `trim()`, so the composite is a
whitespace filter. -/
def clean (s : String) : String :=
  ⟨s.data.filter (fun c => !c.isWhitespace)⟩

/-- Model of `mathExpression.trim().replace(/[^0-9+\-*/().]/g, '')` in
`solveWithPipeline` stage 1: the trailing filter removes all whitespace
(whitespace is outside the class), subsuming the leading `trim()`. -/
def sanitize (s : String) : String :=
  ⟨s.data.filter isArithChar⟩

/-- Scanner for the regex `\d{10,}` (a run of 10 or more consecutive
digits); `k` counts the digits of the current run. -/
def hasRun10 : List Char → Nat → Bool
  | [], _ => false
  | c :: r, k =>
    if c.isDigit then
      if k + 1 ≥ 10 then true else hasRun10 r (k + 1)
    else hasRun10 r 0

/-- Model of `/\d{10,}/.test(cleaned)` in `executeMathExpression`. -/
def hasLargeNumbers (s : String) : Bool :=
  hasRun10 s.data 0

/-- A JavaScript number: an exact rational, or one of the IEEE special
values. -/
inductive JSNum where
  | fin : ℚ → JSNum
  | posInf : JSNum
  | negInf : JSNum
  | nan : JSNum
deriving DecidableEq, Repr

/-- A JavaScript value as it occurs in the evaluator's results: a number or
a string (the BigInt path produces strings, the float path numbers). -/
inductive JSValue where
  | num : JSNum → JSValue
  | str : String → JSValue
deriving DecidableEq, Repr

def JSNum.neg : JSNum → JSNum
  | .fin q => .fin (-q)
  | .posInf => .negInf
  | .negInf => .posInf
  | .nan => .nan

def JSNum.add : JSNum → JSNum → JSNum
  | .nan, _ => .nan
  | _, .nan => .nan
  | .fin a, .fin b => .fin (a + b)
  | .posInf, .negInf => .nan
  | .negInf, .posInf => .nan
  | .posInf, _ => .posInf
  | _, .posInf => .posInf
  | .negInf, _ => .negInf
  | _, .negInf => .negInf

def JSNum.sub (a b : JSNum) : JSNum := a.add b.neg

def JSNum.mul : JSNum → JSNum → JSNum
  | .nan, _ => .nan
  | _, .nan => .nan
  | .fin a, .fin b => .fin (a * b)
  | .posInf, .posInf => .posInf
  | .posInf, .negInf => .negInf
  | .negInf, .posInf => .negInf
  | .negInf, .negInf => .posInf
  | .posInf, .fin b => if b = 0 then .nan else if 0 < b then .posInf else .negInf
  | .fin a, .posInf => if a = 0 then .nan else if 0 < a then .posInf else .negInf
  | .negInf, .fin b => if b = 0 then .nan else if 0 < b then .negInf else .posInf
  | .fin a, .negInf => if a = 0 then .nan else if 0 < a then .negInf else .posInf

def JSNum.div : JSNum → JSNum → JSNum
  | .nan, _ => .nan
  | _, .nan => .nan
  | .fin a, .fin b =>
    if b = 0 then
      (if a = 0 then .nan else if 0 < a then .posInf else .negInf)
    else .fin (a / b)
  | .posInf, .posInf => .nan
  | .posInf, .negInf => .nan
  | .negInf, .posInf => .nan
  | .negInf, .negInf => .nan
  | .posInf, .fin b => if 0 ≤ b then .posInf else .negInf
  | .negInf, .fin b => if 0 ≤ b then .negInf else .posInf
  | .fin _, .posInf => .fin 0
  | .fin _, .negInf => .fin 0

/-- Decimal digit-string to natural number (model of `BigInt(num)` on an
all-digit string). -/
def natOfDigits (l : List Char) : ℕ :=
  l.foldl (fun a c => a * 10 + (c.toNat - 48)) 0

/-- Number of decimal digits of a natural number (1 for 0). -/
def digitsLen (n : ℕ) : ℕ :=
  (Nat.toDigits 10 n).length

/-- Integer power of ten as a rational. -/
def pow10 (e : ℤ) : ℚ :=
  if 0 ≤ e then ((10 : ℚ) ^ e.toNat) else ((10 : ℚ) ^ (-e).toNat)⁻¹

/-- Floor of a rational as an integer. -/
def ratFloor (q : ℚ) : ℤ :=
  Int.fdiv q.num (q.den : ℤ)

/-- Model of JavaScript `Math.round`: round half towards positive
infinity, i.e. the floor of `q + 1/2`. -/
def jsRound (q : ℚ) : ℤ :=
  ratFloor (q + 1 / 2)

/-- Decimal exponent of a positive rational: the unique `e` with
`10^e ≤ q < 10^(e+1)`. -/
def expOf (q : ℚ) : ℤ :=
  let k : ℤ := (digitsLen q.num.toNat : ℤ) - (digitsLen q.den : ℤ)
  if q < pow10 k then k - 1 else k

/-- Model of JavaScript `Number.prototype.toExponential(4)` on the exact
rational value: mantissa rounded to 4 fraction digits (ties away from
zero on the magnitude, per the ECMAScript "pick the larger n" rule),
rendered as `d.dddde±e`. -/
def toExponential4 (q : ℚ) : String :=
  if q = 0 then "0.0000e+0"
  else
    let sign := if q < 0 then "-" else ""
    let a := |q|
    let e := expOf a
    let dRaw := jsRound (a * pow10 (-e) * 10000)
    let dg := if dRaw = 100000 then (10000 : ℤ) else dRaw
    let e2 := if dRaw = 100000 then e + 1 else e
    let dl := (toString dg.toNat).data
    let es := if e2 < 0 then "-" ++ toString (-e2).toNat else "+" ++ toString e2.toNat
    sign ++ String.mk (dl.take 1) ++ "." ++ String.mk (dl.drop 1) ++ "e" ++ es

/-- Model of `Math.abs(num) < c` on a JavaScript number (false for NaN,
false for the infinities against a finite bound). -/
def JSNum.absLtQ : JSNum → ℚ → Bool
  | .fin q, c => decide (|q| < c)
  | .posInf, _ => false
  | .negInf, _ => false
  | .nan, _ => false

/-- Model of `Math.abs(num) > c` on a JavaScript number (false for NaN,
true for the infinities against a finite bound). -/
def JSNum.absGtQ : JSNum → ℚ → Bool
  | .fin q, c => decide (c < |q|)
  | .posInf, _ => true
  | .negInf, _ => true
  | .nan, _ => false

/-- Model of `num.toExponential(4)` including the special values, which
JavaScript renders as their plain names. -/
def JSNum.toExpo4 : JSNum → String
  | .fin q => toExponential4 q
  | .posInf => "Infinity"
  | .negInf => "-Infinity"
  | .nan => "NaN"

/-- Model of `Math.round(num * 1e6) / 1e6`. -/
def JSNum.round6 : JSNum → JSNum
  | .fin q => .fin ((jsRound (q * 1000000) : ℚ) / 1000000)
  | .posInf => .posInf
  | .negInf => .negInf
  | .nan => .nan

/-- Model of `PALInterpreter.formatNumber`. A string is returned as is
(first `typeof` guard); a number is rendered in scientific notation when
`Math.abs(num) < 0.0001 || Math.abs(num) > 1e10`, else rounded to 6
decimal places — note the result of that branch is a number, not a
string, exactly as in the source. -/
def formatNumber (v : JSValue) : JSValue :=
  match v with
  | .str s => .str s
  | .num n =>
    if n.absLtQ (1 / 10000) || n.absGtQ ((10 : ℚ) ^ (10 : ℕ)) then
      .str n.toExpo4
    else
      .num n.round6

/-- Decimal literal parse: digits, optionally a point and more digits
(`12`, `12.5`, `.5`, `5.`), as in the JavaScript numeric grammar restricted
to the sanitized character class. Returns the value and the rest. -/
def parseNumber (l : List Char) : Except String (ℚ × List Char) :=
  let d1 := l.takeWhile Char.isDigit
  let r1 := l.dropWhile Char.isDigit
  match r1 with
  | '.' :: r2 =>
    let d2 := r2.takeWhile Char.isDigit
    let r3 := r2.dropWhile Char.isDigit
    if d1.isEmpty && d2.isEmpty then .error "Invalid or unexpected token"
    else .ok ((natOfDigits d1 : ℚ) + (natOfDigits d2 : ℚ) / (10 : ℚ) ^ d2.length, r3)
  | _ =>
    if d1.isEmpty then .error "Invalid or unexpected token"
    else .ok ((natOfDigits d1 : ℚ), r1)

mutual

/-- Primary expression: parenthesized expression, unary minus, unary plus,
or a numeric literal. The fuel argument strictly decreases on every call;
`fpEval` supplies enough of it for any input. -/
def parsePrimary : ℕ → List Char → Except String (JSNum × List Char)
  | 0, _ => .error "expression too deeply nested"
  | f + 1, l =>
    match l with
    | '(' :: r =>
      match parseAdd f r with
      | .error e => .error e
      | .ok (v, r1) =>
        match r1 with
        | ')' :: r2 => .ok (v, r2)
        | _ => .error "missing ) in parenthetical"
    | '-' :: r =>
      match parsePrimary f r with
      | .error e => .error e
      | .ok (v, r1) => .ok (v.neg, r1)
    | '+' :: r => parsePrimary f r
    | _ =>
      match parseNumber l with
      | .error e => .error e
      | .ok (q, r) => .ok (.fin q, r)

/-- Left-associated chain of `*` and `/` after an initial factor. -/
def parseMulTail : ℕ → JSNum → List Char → Except String (JSNum × List Char)
  | 0, _, _ => .error "expression too deeply nested"
  | f + 1, acc, l =>
    match l with
    | '*' :: r =>
      match parsePrimary f r with
      | .error e => .error e
      | .ok (v, r1) => parseMulTail f (acc.mul v) r1
    | '/' :: r =>
      match parsePrimary f r with
      | .error e => .error e
      | .ok (v, r1) => parseMulTail f (acc.div v) r1
    | _ => .ok (acc, l)

/-- Multiplicative level of the grammar. -/
def parseMul : ℕ → List Char → Except String (JSNum × List Char)
  | 0, _ => .error "expression too deeply nested"
  | f + 1, l =>
    match parsePrimary f l with
    | .error e => .error e
    | .ok (v, r) => parseMulTail f v r

/-- Left-associated chain of `+` and `-` after an initial term. -/
def parseAddTail : ℕ → JSNum → List Char → Except String (JSNum × List Char)
  | 0, _, _ => .error "expression too deeply nested"
  | f + 1, acc, l =>
    match l with
    | '+' :: r =>
      match parseMul f r with
      | .error e => .error e
      | .ok (v, r1) => parseAddTail f (acc.add v) r1
    | '-' :: r =>
      match parseMul f r with
      | .error e => .error e
      | .ok (v, r1) => parseAddTail f (acc.sub v) r1
    | _ => .ok (acc, l)

/-- Additive (top) level of the grammar. -/
def parseAdd : ℕ → List Char → Except String (JSNum × List Char)
  | 0, _ => .error "expression too deeply nested"
  | f + 1, l =>
    match parseMul f l with
    | .error e => .error e
    | .ok (v, r) => parseAddTail f v r

end

/-- Model of `Function('"use strict"; return (' + cleaned + ')')()` on the
arithmetic fragment: parse the whole string as an arithmetic expression
and yield its value; anything else (including the empty string and any
string with characters outside the fragment) yields an error, as the
unrestricted JavaScript evaluator raises SyntaxError or ReferenceError on
such inputs in strict-mode Node. -/
def fpEval (s : String) : Except String JSNum :=
  match parseAdd (4 * (s.data.length + 1) + 4) s.data with
  | .error e => .error e
  | .ok (v, []) => .ok v
  | .ok (_, _ :: _) => .error "Invalid or unexpected token"

/-- Tagged result of the evaluator: `ok result formatted` models
`{success: true, result, formatted}`, `err msg` models
`{success: false, error: msg}`. -/
inductive EvalResult where
  | ok : JSValue → JSValue → EvalResult
  | err : String → EvalResult
deriving DecidableEq, Repr

/-- Attempt of `/(\d+)\s*([+\-*\/])\s*(\d+)/` at the head of the list:
greedy maximal digit run, optional whitespace, one operator, optional
whitespace, a nonempty digit run. -/
def tryBinOpHere (l : List Char) : Option (List Char × Char × List Char) :=
  let d1 := l.takeWhile Char.isDigit
  if d1.isEmpty then none
  else
    let r1 := (l.dropWhile Char.isDigit).dropWhile Char.isWhitespace
    match r1 with
    | o :: r2 =>
      if o = '+' ∨ o = '-' ∨ o = '*' ∨ o = '/' then
        let d2 := (r2.dropWhile Char.isWhitespace).takeWhile Char.isDigit
        if d2.isEmpty then none else some (d1, o, d2)
      else none
    | [] => none

/-- Model of `expr.match(/(\d+)\s*([+\-*\/])\s*(\d+)/)`: the JavaScript
regex search is unanchored and returns the leftmost match, so the scan
tries every start position from the left. -/
def findBinOp : List Char → Option (List Char × Char × List Char)
  | [] => none
  | c :: r =>
    match tryBinOpHere (c :: r) with
    | some x => some x
    | none => findBinOp r

/-- Success result of the BigInt path: `result.toString()` is used for both
the `result` and `formatted` fields. -/
def bigIntOk (n : ℤ) : EvalResult :=
  .ok (.str (toString n)) (.str (toString n))

/-- Model of `PALInterpreter.evaluateBigInt`. The regex match is
unanchored, so only the FIRST `<digits><op><digits>` occurrence is
evaluated; with no occurrence at all the thrown error is caught as
`Complex expression not supported`. BigInt division truncates and throws
`RangeError: Division by zero` on a zero divisor, which the `catch`
turns into an error result carrying that message. -/
def evaluateBigInt (expr : String) : EvalResult :=
  match findBinOp expr.data with
  | none => .err "Complex expression not supported"
  | some (num1, op, num2) =>
    let a : ℤ := (natOfDigits num1 : ℤ)
    let b : ℤ := (natOfDigits num2 : ℤ)
    match op with
    | '+' => bigIntOk (a + b)
    | '-' => bigIntOk (a - b)
    | '*' => bigIntOk (a * b)
    | '/' => if b = 0 then .err "Division by zero" else bigIntOk (Int.tdiv a b)
    | _ => .err ("Unsupported operator: " ++ String.mk [op])

/-- Floating-point branch of `executeMathExpression`: run the dynamic
evaluator on the cleaned string; on success wrap the numeric result with
its `formatNumber` rendering, on an exception report its message. -/
def fpPathRun (cleaned : String) : EvalResult :=
  match fpEval cleaned with
  | .error e => .err e
  | .ok v => .ok (.num v) (formatNumber (.num v))

/-- Model of `PALInterpreter.executeMathExpression`: strip whitespace,
route expressions containing a run of 10 or more digits to the BigInt
path and everything else to the dynamic floating-point evaluator. -/
def executeMathExpression (expression : String) : EvalResult :=
  let cleaned := clean expression
  if hasLargeNumbers cleaned then evaluateBigInt cleaned
  else fpPathRun cleaned

/-- The fixed keyword set of `OllamaService.isMathQuery`. -/
def mathKeywords : List String :=
  ["calculate", "compute", "solve", "what is", "how much",
   "sum", "difference", "product", "quotient", "average",
   "percentage", "percent", "add", "subtract", "multiply", "divide",
   "plus", "minus", "times"]

/-- Model of `query.toLowerCase()` (ASCII case mapping; the keyword set and
the claims are ASCII-only). -/
def lowerStr (s : String) : String :=
  ⟨s.data.map Char.toLower⟩

/-- Whether `needle` occurs at the head of `hay`. -/
def startsWithL : List Char → List Char → Bool
  | [], _ => true
  | _ :: _, [] => false
  | a :: as, b :: bs => a == b && startsWithL as bs

/-- Model of `String.prototype.includes`: whether `needle` occurs
anywhere in `hay`. -/
def containsSub (needle : List Char) : List Char → Bool
  | [] => startsWithL needle []
  | b :: bs => startsWithL needle (b :: bs) || containsSub needle bs

/-- The operator class `[+\-*\/^%]` of the `hasArithmetic` regex. -/
def isOpB (c : Char) : Bool :=
  c == '+' || c == '-' || c == '*' || c == '/' || c == '^' || c == '%'

/-- Attempt of the regex `\d+[\s]*[+\-*\/^%][\s]*\d+` at the head of the
list: nonempty digit run, optional whitespace, an operator, optional
whitespace, nonempty digit run. -/
def tryPatHere (l : List Char) : Bool :=
  let d1 := l.takeWhile Char.isDigit
  if d1.isEmpty then false
  else
    match (l.dropWhile Char.isDigit).dropWhile Char.isWhitespace with
    | [] => false
    | o :: r3 =>
      isOpB o && !((r3.dropWhile Char.isWhitespace).takeWhile Char.isDigit).isEmpty

/-- Model of `/\d+[\s]*[+\-*\/^%][\s]*\d+/.test(query)`: unanchored
leftmost search, trying every start position. -/
def hasArithScan : List Char → Bool
  | [] => false
  | c :: r => tryPatHere (c :: r) || hasArithScan r

/-- Model of `OllamaService.isMathQuery`: a keyword occurs in the
lowercased query, or the numeric-operator pattern matches the raw query. -/
def isMathQuery (query : String) : Bool :=
  let lowerQuery := lowerStr query
  let hasKeyword := mathKeywords.any (fun k => containsSub k.data lowerQuery.data)
  let hasArithmetic := hasArithScan query.data
  hasKeyword || hasArithmetic

/-- Declarative reading of the numeric-operator pattern: somewhere in the
list, a nonempty digit run, optional whitespace, one operator of
`+ - * / ^ %`, optional whitespace, and a nonempty digit run occur
consecutively. -/
def ArithPat (l : List Char) : Prop :=
  ∃ p d1 w1 o w2 d2 r,
    l = p ++ d1 ++ w1 ++ o :: (w2 ++ d2 ++ r) ∧
    d1 ≠ [] ∧ (∀ c ∈ d1, c.isDigit = true) ∧
    (∀ c ∈ w1, c.isWhitespace = true) ∧
    isOpB o = true ∧
    (∀ c ∈ w2, c.isWhitespace = true) ∧
    d2 ≠ [] ∧ (∀ c ∈ d2, c.isDigit = true)

/-- Status of a pipeline stage. -/
inductive StageStatus where
  | running : StageStatus
  | complete : StageStatus
  | error : StageStatus
deriving DecidableEq, Repr

/-- Input payload of a pipeline stage: stage 2 receives the sanitized
expression string; stage 3 receives the object
`{question, expression, result}`. -/
inductive StageInput where
  | str : String → StageInput
  | obj : String → String → JSValue → StageInput
deriving DecidableEq, Repr

/-- One record of the `stages` array built by `solveWithPipeline`. -/
structure PipelineStage where
  stage : ℕ
  name : String
  status : StageStatus
  input : Option StageInput
  output : Option JSValue
  error : Option String
deriving DecidableEq, Repr

/-- The value returned by `solveWithPipeline`: the stage trace, the overall
success flag, and (on success) the final answer. -/
structure PipelineRun where
  stages : List PipelineStage
  success : Bool
  finalAnswer : Option String
deriving DecidableEq, Repr

/-- Model of `OllamaService.solveWithPipeline`. The two extra parameters
model the raw responses of the external LLM (`this.generate`) for the
stage-1 extraction prompt and the stage-3 formatting prompt; the function
is only defined for runs in which those calls return (a transport failure
would propagate as an exception before a run value exists). -/
def solveWithPipeline (userQuery rawExtraction rawFormat : String) : PipelineRun :=
  let cleanedExpression := sanitize rawExtraction
  let stage1 : PipelineStage :=
    ⟨1, "LLM: Extract Math Expression", .complete, none,
     some (.str cleanedExpression), none⟩
  match executeMathExpression cleanedExpression with
  | .err e =>
    ⟨[stage1,
      ⟨2, "PAL: Execute Math", .error, some (.str cleanedExpression), none, some e⟩],
     false, none⟩
  | .ok _ f =>
    ⟨[stage1,
      ⟨2, "PAL: Execute Math", .complete, some (.str cleanedExpression), some f, none⟩,
      ⟨3, "LLM: Format Response", .complete,
       some (.obj userQuery cleanedExpression f), some (.str rawFormat.trim), none⟩],
     true, some rawFormat.trim⟩

/-- Per-call options of `OllamaService.generate`: an optional model name,
an optional temperature, and the `modelOptions` object spread into the
request options (modelled as a key-value list). -/
structure GenOptions where
  model : Option String
  temperature : Option ℚ
  modelOptions : List (String × ℚ)
deriving DecidableEq, Repr

/-- The request body assembled by `OllamaService.generate`:
`{model, prompt, stream: false, options: {temperature, ...modelOptions}}`.
The nested options object is modelled as a key-value list. -/
structure RequestBody where
  model : String
  prompt : String
  stream : Bool
  options : List (String × ℚ)
deriving DecidableEq, Repr

/-- JavaScript `a || b` for an optional string: an absent or empty
(falsy) value falls back to the default. -/
def jsOrString (v : Option String) (d : String) : String :=
  match v with
  | none => d
  | some s => if s = "" then d else s

/-- JavaScript `a || b` for an optional number: an absent or zero (falsy)
value falls back to the default. (ℚ has no -0 or NaN; both are also falsy
in JavaScript.) -/
def jsOrNum (v : Option ℚ) (d : ℚ) : ℚ :=
  match v with
  | none => d
  | some x => if x = 0 then d else x

/-- Object-spread merge `{temperature: t, ...mo}`: keys of `mo` override
the base entries. -/
def spreadMerge (base extra : List (String × ℚ)) : List (String × ℚ) :=
  base.filter (fun p => (extra.lookup p.1).isNone) ++ extra

/-- Model of the request-body construction in `OllamaService.generate`:
`model: options.model || this.model` with `this.model = "llama3"`,
`stream: false`, and
`options: {temperature: options.temperature || 0.7, ...options.modelOptions}`. -/
def buildRequestBody (prompt : String) (o : GenOptions) : RequestBody :=
  ⟨jsOrString o.model "llama3", prompt, false,
   spreadMerge [("temperature", jsOrNum o.temperature (7 / 10))] o.modelOptions⟩

/-- Whether a JavaScript value is a finite number. -/
def JSValue.isFiniteNumB : JSValue → Bool
  | .num (.fin _) => true
  | _ => false

/-- Whether a JavaScript value is a number (finite or not). -/
def JSValue.isNumB : JSValue → Bool
  | .num _ => true
  | .str _ => false

/-- Whether a JavaScript value is a string. -/
def JSValue.isStrB : JSValue → Bool
  | .num _ => false
  | .str _ => true

/-- No character of the sanitizer class `[0-9+\-*/().]` is alphabetic, so a
string inside the class cannot spell an identifier or function name. -/
theorem isArithChar_not_alpha (c : Char) (h : isArithChar c = true) :
    c.isAlpha = false := by
  simp [isArithChar] at h
  rcases h with rfl | rfl | rfl | rfl | rfl | rfl | rfl | rfl | rfl | rfl |
    rfl | rfl | rfl | rfl | rfl | rfl | rfl <;> rfl

/-- C1. The spec claims every expression with a 10-digit run and more than
one binary operator yields `Err "Complex expression not supported"`. The
code disagrees: the regex of `evaluateBigInt` is unanchored, so on
`"1234567890+1+1"` it matches the first binary operation `1234567890+1`
and returns success `"1234567891"`, silently dropping the trailing `+1`
(the true value of the expression is 1234567892). The spec (and the
code's own error message) clearly intend multi-operator expressions to be
rejected in this path, so this is a code bug, not a spec error. -/
theorem executeMathExpression_tenDigit_twoOps :
    executeMathExpression "1234567890+1+1" =
      .ok (.str "1234567891") (.str "1234567891") ∧
    (1234567890 + 1 + 1 : ℤ) = 1234567892 := by
  exact ⟨by with_unfolding_all rfl, by decide⟩

/-- C3. Routing policy of `executeMathExpression`: an expression whose
whitespace-stripped form contains a run of 10 or more consecutive digits
is evaluated on the exact BigInt path, any other expression on the
floating-point path; `"1234567890+1"` yields the exact string
`"1234567891"` and `"2+2"` yields the number 4. -/
theorem executeMathExpression_routing :
    (∀ s : String,
      (hasLargeNumbers (clean s) = true →
        executeMathExpression s = evaluateBigInt (clean s)) ∧
      (hasLargeNumbers (clean s) = false →
        executeMathExpression s = fpPathRun (clean s))) ∧
    executeMathExpression "1234567890+1" =
      .ok (.str "1234567891") (.str "1234567891") ∧
    executeMathExpression "2+2" = .ok (.num (.fin 4)) (.num (.fin 4)) := by
  refine ⟨fun s => ⟨fun h => ?_, fun h => ?_⟩, by with_unfolding_all rfl,
    by with_unfolding_all rfl⟩ <;> simp [executeMathExpression, h]

/-- C3 witness: the routing equations instantiated on the two concrete
inputs of the claim. -/
theorem executeMathExpression_routing_witness :
    executeMathExpression "1234567890+1" = evaluateBigInt (clean "1234567890+1") ∧
    executeMathExpression "2+2" = fpPathRun (clean "2+2") :=
  ⟨(executeMathExpression_routing.1 "1234567890+1").1 (by decide),
   (executeMathExpression_routing.1 "2+2").2 (by decide)⟩

/-- C4 counterexample. The claim says every `Ok` value is a finite
floating-point number or an exact integer string. But `"2/0"` takes the
floating-point path and succeeds with the non-finite value `Infinity`
(formatted by the scientific-notation branch as the string `"Infinity"`),
so the claim as stated is false. -/
theorem executeMathExpression_ok_nonfinite :
    executeMathExpression "2/0" = .ok (.num .posInf) (.str "Infinity") ∧
    JSValue.isFiniteNumB (.num .posInf) = false ∧
    JSValue.isStrB (.num .posInf) = false := by
  exact ⟨by with_unfolding_all rfl, rfl, rfl⟩

/-- C4 amended: every `Ok` result of the evaluator carries either a number
(possibly Infinity, -Infinity or NaN) whose `formatted` field is its
`formatNumber` rendering, or an exact arbitrary-precision integer decimal
string whose `formatted` field is that same string — never both. -/
theorem executeMathExpression_ok_shape (s : String) (r f : JSValue)
    (h : executeMathExpression s = .ok r f) :
    (∃ x, r = .num x ∧ f = formatNumber (.num x)) ∨
    (∃ n : ℤ, r = .str (toString n) ∧ f = .str (toString n)) := by
  unfold executeMathExpression at h
  by_cases hl : hasLargeNumbers (clean s) = true
  · rw [if_pos hl] at h
    unfold evaluateBigInt at h
    rcases hf : findBinOp (clean s).data with _ | ⟨d1, op, d2⟩ <;> rw [hf] at h
    · exact absurd h (by simp)
    · simp only [bigIntOk] at h
      split at h <;>
        [skip; skip; skip; (split at h <;> [exact absurd h (by simp); skip]);
         exact absurd h (by simp)] <;>
      · injection h with h1 h2
        subst h1; subst h2
        exact Or.inr ⟨_, rfl, rfl⟩
  · rw [if_neg hl] at h
    unfold fpPathRun at h
    rcases he : fpEval (clean s) with e | v <;> rw [he] at h
    · exact absurd h (by simp)
    · injection h with h1 h2
      subst h1; subst h2
      exact Or.inl ⟨v, rfl, rfl⟩

/-- C4 witness: the shape theorem applied to the concrete success
`executeMathExpression "2+2" = Ok 4`. -/
theorem executeMathExpression_ok_shape_witness :
    (∃ x, JSValue.num (.fin 4) = .num x ∧
      JSValue.num (.fin 4) = formatNumber (.num x)) ∨
    (∃ n : ℤ, JSValue.num (.fin 4) = .str (toString n) ∧
      JSValue.num (.fin 4) = .str (toString n)) :=
  executeMathExpression_ok_shape "2+2" (.num (.fin 4)) (.num (.fin 4))
    (by with_unfolding_all rfl)

/-- C5 counterexample. The claim says a result of magnitude zero is
rendered as a plain decimal, but the code's guard `Math.abs(num) < 0.0001`
is true at 0, so `formatNumber` renders 0 in scientific notation
(`"0.0000e+0"`, a string), not as a plain decimal number. -/
theorem formatNumber_zero_scientific :
    formatNumber (.num (.fin 0)) = .str "0.0000e+0" ∧
    JSValue.isNumB (formatNumber (.num (.fin 0))) = false := by
  exact ⟨by with_unfolding_all rfl, by with_unfolding_all rfl⟩

/-- C5 amended: for a finite numeric result, if the magnitude is less than
1e-4 (including zero) or greater than 1e10, `formatNumber` renders the
value in scientific notation with 4 fractional digits; otherwise it
rounds to 6 decimal places, returning a plain number. The three boundary
examples of the spec evaluate as claimed. -/
theorem formatNumber_piecewise :
    (∀ q : ℚ, formatNumber (.num (.fin q)) =
      (if |q| < 1 / 10000 ∨ (10 : ℚ) ^ (10 : ℕ) < |q| then
        .str (toExponential4 q)
      else
        .num (.fin ((jsRound (q * 1000000) : ℚ) / 1000000)))) ∧
    formatNumber (.num (.fin (1 / 20000))) = .str "5.0000e-5" ∧
    formatNumber (.num (.fin (123456789 / 1000000))) =
      .num (.fin (123456789 / 1000000)) ∧
    formatNumber (.num (.fin ((10 : ℚ) ^ (11 : ℕ)))) = .str "1.0000e+11" := by
  refine ⟨fun q => ?_, by with_unfolding_all rfl, by with_unfolding_all rfl,
    by with_unfolding_all rfl⟩
  by_cases h : |q| < 1 / 10000 ∨ (10 : ℚ) ^ (10 : ℕ) < |q|
  · rw [if_pos h]
    rcases h with h | h
    · simp only [formatNumber, JSNum.absLtQ, JSNum.absGtQ, JSNum.toExpo4,
        decide_eq_true h, Bool.true_or, if_true]
    · simp only [formatNumber, JSNum.absLtQ, JSNum.absGtQ, JSNum.toExpo4,
        decide_eq_true h, Bool.or_true, if_true]
  · rw [if_neg h]
    have h1 : ¬ (|q| < 1 / 10000) := fun a => h (Or.inl a)
    have h2 : ¬ ((10 : ℚ) ^ (10 : ℕ) < |q|) := fun a => h (Or.inr a)
    simp only [formatNumber, JSNum.absLtQ, JSNum.absGtQ, JSNum.round6,
      decide_eq_false h1, decide_eq_false h2, Bool.or_self, Bool.false_or]
    rfl

/-- C10. On the exact path a zero divisor makes the BigInt division throw,
and the catch converts it into `Err "Division by zero"` (never an `Ok`
and never an uncaught exception); concretely `"1234567890/0"` yields that
error, while on the floating-point path `"2/0"` succeeds with the
non-finite value `Infinity`. -/
theorem executeMathExpression_divZero :
    (∀ (s : String) (d1 d2 : List Char),
      hasLargeNumbers (clean s) = true →
      findBinOp (clean s).data = some (d1, '/', d2) →
      natOfDigits d2 = 0 →
      executeMathExpression s = .err "Division by zero") ∧
    executeMathExpression "1234567890/0" = .err "Division by zero" ∧
    executeMathExpression "2/0" = .ok (.num .posInf) (.str "Infinity") ∧
    JSValue.isFiniteNumB (.num .posInf) = false := by
  refine ⟨fun s d1 d2 hl hf hz => ?_, by with_unfolding_all rfl,
    by with_unfolding_all rfl, rfl⟩
  have hzi : (natOfDigits d2 : ℤ) = 0 := by exact_mod_cast hz
  simp [executeMathExpression, hl, evaluateBigInt, hf, hzi]

/-- C10 witness: the zero-divisor theorem applied at the concrete exact-path
input `"1234567890/0"`. -/
theorem executeMathExpression_divZero_witness :
    executeMathExpression "1234567890/0" = .err "Division by zero" :=
  executeMathExpression_divZero.1 "1234567890/0"
    ['1', '2', '3', '4', '5', '6', '7', '8', '9', '0'] ['0']
    (by decide) (by decide) (by decide)

/-- C2 counterexample. The claim says the floating-point path executes
nothing beyond arithmetic for every input expression. But the evaluator
imposes no restriction before handing the string to the unrestricted
interpreter primitive (`Function`): the input `"alert(1)"` contains no
10-digit run, so it reaches the floating-point path unchanged, and it
contains characters outside the arithmetic class — in JavaScript these
spell the identifier `alert` and a call to it, which the primitive would
resolve and execute (a side effect in any environment defining `alert`). -/
theorem fpPath_receives_unsanitized :
    hasLargeNumbers (clean "alert(1)") = false ∧
    clean "alert(1)" = "alert(1)" ∧
    executeMathExpression "alert(1)" = fpPathRun "alert(1)" ∧
    ("alert(1)".data.all isArithChar) = false := by
  exact ⟨by decide, by decide, by with_unfolding_all rfl, by decide⟩

/-- C2 amended: the floating-point path passes the whitespace-stripped
expression, unrestricted, to the dynamic evaluator; only for inputs that
already satisfy the sanitized character-class invariant `[0-9+\-*/().]`
(up to whitespace) is the string handed over free of alphabetic
characters, hence unable to name an identifier or function — the security
boundary rests on the stage-1 sanitizer, not on the evaluator itself. -/
theorem fpPath_arith_confined (s : String)
    (h : s.data.all (fun c => isArithChar c || c.isWhitespace) = true) :
    (clean s).data.all isArithChar = true ∧
    (clean s).data.all (fun c => !c.isAlpha) = true ∧
    (hasLargeNumbers (clean s) = false →
      executeMathExpression s = fpPathRun (clean s)) := by
  have hall : ∀ c ∈ (clean s).data, isArithChar c = true := by
    intro c hc
    have hcs : c ∈ s.data ∧ (!c.isWhitespace) = true := by
      simpa using List.mem_filter.mp hc
    have := List.all_eq_true.mp h c hcs.1
    simp only [Bool.or_eq_true] at this
    rcases this with ha | hw
    · exact ha
    · exact absurd hw (by simpa using hcs.2)
  refine ⟨List.all_eq_true.mpr hall, List.all_eq_true.mpr ?_, fun hl => ?_⟩
  · intro c hc
    simpa using isArithChar_not_alpha c (hall c hc)
  · simp [executeMathExpression, hl]

/-- C2 witness: the confinement theorem applied to the in-class input
`"2 + 2"`. -/
theorem fpPath_arith_confined_witness :
    (clean "2 + 2").data.all isArithChar = true ∧
    (clean "2 + 2").data.all (fun c => !c.isAlpha) = true ∧
    (hasLargeNumbers (clean "2 + 2") = false →
      executeMathExpression "2 + 2" = fpPathRun (clean "2 + 2")) :=
  fpPath_arith_confined "2 + 2" (by decide)

/-- C6. When stage-2 evaluation fails, the run holds exactly 2 stages with
statuses (complete, error), the error message is recorded on stage 2, the
overall success flag is false, no final answer exists, and no stage-3
record is ever constructed. -/
theorem solveWithPipeline_shortCircuit (q raw fmt msg : String)
    (h : executeMathExpression (sanitize raw) = .err msg) :
    (solveWithPipeline q raw fmt).stages.length = 2 ∧
    (solveWithPipeline q raw fmt).stages.map PipelineStage.status =
      [.complete, .error] ∧
    (solveWithPipeline q raw fmt).stages.map PipelineStage.error =
      [none, some msg] ∧
    (solveWithPipeline q raw fmt).success = false ∧
    (solveWithPipeline q raw fmt).finalAnswer = none ∧
    ∀ st ∈ (solveWithPipeline q raw fmt).stages, st.stage ≠ 3 := by
  refine ⟨?_, ?_, ?_, ?_, ?_, ?_⟩ <;>
    simp [solveWithPipeline, h]

/-- C6 witness: a raw extraction of eleven digits and no operator sanitizes
to itself, takes the exact path, and fails with the unsupported-expression
message; the short-circuit theorem then applies. -/
theorem solveWithPipeline_shortCircuit_witness :
    (solveWithPipeline "what is 12345678901" " 12345678901 " "unused").stages.length = 2 ∧
    (solveWithPipeline "what is 12345678901" " 12345678901 " "unused").stages.map
      PipelineStage.status = [.complete, .error] ∧
    (solveWithPipeline "what is 12345678901" " 12345678901 " "unused").stages.map
      PipelineStage.error = [none, some "Complex expression not supported"] ∧
    (solveWithPipeline "what is 12345678901" " 12345678901 " "unused").success = false ∧
    (solveWithPipeline "what is 12345678901" " 12345678901 " "unused").finalAnswer = none ∧
    ∀ st ∈ (solveWithPipeline "what is 12345678901" " 12345678901 " "unused").stages,
      st.stage ≠ 3 :=
  solveWithPipeline_shortCircuit "what is 12345678901" " 12345678901 " "unused"
    "Complex expression not supported" (by decide)

/-- C7. For every raw model output, stage 1 is recorded as complete with
output the raw string stripped of every character outside `[0-9+\-*/().]`,
whatever the stripped string turns out to be; concretely
`"The answer is 12+5!"` sanitizes to `"12+5"`. -/
theorem solveWithPipeline_stage1_sanitized :
    (∀ q raw fmt : String,
      ((solveWithPipeline q raw fmt).stages.head?).map
        (fun st => (st.status, st.output)) =
        some (.complete, some (.str (sanitize raw)))) ∧
    sanitize "The answer is 12+5!" = "12+5" := by
  refine ⟨fun q raw fmt => ?_, by decide⟩
  cases h : executeMathExpression (sanitize raw) <;>
    simp [solveWithPipeline, h]

/-- C9 counterexample. The claim says a caller-supplied temperature is used
exactly, including 0. But the source computes
`options.temperature || 0.7`, and 0 is falsy in JavaScript, so a supplied
temperature of 0 silently becomes 0.7. -/
theorem buildRequestBody_temperature_zero :
    (buildRequestBody "p" ⟨none, some 0, []⟩).options.lookup "temperature" =
      some (7 / 10) ∧
    (7 / 10 : ℚ) ≠ 0 := by
  constructor
  · with_unfolding_all rfl
  · intro h
    exact absurd (congrArg Rat.num h) (by with_unfolding_all decide)

/-- C9 amended: with no per-call override the request uses model "llama3"
and temperature 0.7, and a truthy override (a non-empty model string, a
non-zero temperature) is used exactly; but a falsy override — in
particular a supplied temperature of 0 — falls back to the default,
by JavaScript `||` semantics. -/
theorem buildRequestBody_spec (p m : String) (t : ℚ) :
    (buildRequestBody p ⟨none, none, []⟩).model = "llama3" ∧
    (buildRequestBody p ⟨none, none, []⟩).options.lookup "temperature" =
      some (7 / 10) ∧
    (buildRequestBody p ⟨none, none, []⟩).stream = false ∧
    (buildRequestBody p ⟨none, none, []⟩).prompt = p ∧
    (m ≠ "" → (buildRequestBody p ⟨some m, none, []⟩).model = m) ∧
    (t ≠ 0 → (buildRequestBody p ⟨none, some t, []⟩).options.lookup
      "temperature" = some t) ∧
    (buildRequestBody p ⟨none, some 0, []⟩).options.lookup "temperature" =
      some (7 / 10) := by
  refine ⟨rfl, by with_unfolding_all rfl, rfl, rfl, fun hm => ?_, fun ht => ?_,
    by with_unfolding_all rfl⟩
  · simp [buildRequestBody, jsOrString, hm]
  · simp [buildRequestBody, jsOrNum, spreadMerge, ht, List.lookup]

/-- C9 witness: the request-construction theorem at prompt "hi" with
overrides model "phi" and temperature 1/2. -/
theorem buildRequestBody_spec_witness :
    (buildRequestBody "hi" ⟨some "phi", none, []⟩).model = "phi" ∧
    (buildRequestBody "hi" ⟨none, some (1 / 2), []⟩).options.lookup
      "temperature" = some (1 / 2) := by
  refine ⟨(buildRequestBody_spec "hi" "phi" (1 / 2)).2.2.2.2.1 ?_,
    (buildRequestBody_spec "hi" "phi" (1 / 2)).2.2.2.2.2.1 ?_⟩
  · intro h; exact absurd (congrArg String.length h) (by decide)
  · intro h; exact absurd (congrArg Rat.num h) (by with_unfolding_all decide)

/-- Appending past an all-satisfying prefix commutes with `takeWhile`. -/
theorem takeWhile_append_of_all (p : Char → Bool) (l1 l2 : List Char)
    (h : ∀ c ∈ l1, p c = true) :
    (l1 ++ l2).takeWhile p = l1 ++ l2.takeWhile p := by
  induction l1 with
  | nil => simp
  | cons a as ih =>
    have ha : p a = true := h a (List.mem_cons_self a as)
    simp only [List.cons_append, List.takeWhile_cons, ha, if_true]
    rw [ih (fun c hc => h c (List.mem_cons_of_mem a hc))]

/-- Appending past an all-satisfying prefix commutes with `dropWhile`. -/
theorem dropWhile_append_of_all (p : Char → Bool) (l1 l2 : List Char)
    (h : ∀ c ∈ l1, p c = true) :
    (l1 ++ l2).dropWhile p = l2.dropWhile p := by
  induction l1 with
  | nil => simp
  | cons a as ih =>
    have ha : p a = true := h a (List.mem_cons_self a as)
    simp only [List.cons_append, List.dropWhile_cons, ha, if_true]
    exact ih (fun c hc => h c (List.mem_cons_of_mem a hc))

/-- A whitespace character is not a digit. -/
theorem ws_not_digit (c : Char) (h : c.isWhitespace = true) :
    c.isDigit = false := by
  simp [Char.isWhitespace, or_assoc] at h
  rcases h with rfl | rfl | rfl | rfl <;> rfl

/-- An operator of the `hasArithmetic` class is not a digit. -/
theorem op_not_digit (c : Char) (h : isOpB c = true) : c.isDigit = false := by
  simp [isOpB, or_assoc] at h
  rcases h with rfl | rfl | rfl | rfl | rfl | rfl <;> rfl

/-- An operator of the `hasArithmetic` class is not whitespace. -/
theorem op_not_ws (c : Char) (h : isOpB c = true) :
    c.isWhitespace = false := by
  simp [isOpB, or_assoc] at h
  rcases h with rfl | rfl | rfl | rfl | rfl | rfl <;> rfl

/-- Soundness of the head-anchored pattern attempt: a successful attempt
exhibits the declarative decomposition at the head of the list. -/
theorem tryPatHere_sound (l : List Char) (h : tryPatHere l = true) :
    ∃ d1 w1 o w2 d2 r,
      l = d1 ++ w1 ++ o :: (w2 ++ d2 ++ r) ∧
      d1 ≠ [] ∧ (∀ c ∈ d1, c.isDigit = true) ∧
      (∀ c ∈ w1, c.isWhitespace = true) ∧
      isOpB o = true ∧
      (∀ c ∈ w2, c.isWhitespace = true) ∧
      d2 ≠ [] ∧ (∀ c ∈ d2, c.isDigit = true) := by
  unfold tryPatHere at h
  by_cases hd1 : (l.takeWhile Char.isDigit).isEmpty
  · rw [if_pos hd1] at h; exact absurd h (by simp)
  · rw [if_neg hd1] at h
    rcases hr : (l.dropWhile Char.isDigit).dropWhile Char.isWhitespace with
      _ | ⟨o, r3⟩ <;> rw [hr] at h
    · exact absurd h (by simp)
    · rw [Bool.and_eq_true] at h
      refine ⟨l.takeWhile Char.isDigit,
        (l.dropWhile Char.isDigit).takeWhile Char.isWhitespace, o,
        r3.takeWhile Char.isWhitespace,
        (r3.dropWhile Char.isWhitespace).takeWhile Char.isDigit,
        (r3.dropWhile Char.isWhitespace).dropWhile Char.isDigit,
        ?_, ?_, ?_, ?_, h.1, ?_, ?_, ?_⟩
      · have e1 : l = l.takeWhile Char.isDigit ++ l.dropWhile Char.isDigit :=
          (List.takeWhile_append_dropWhile _ _).symm
        have e2 : l.dropWhile Char.isDigit =
            (l.dropWhile Char.isDigit).takeWhile Char.isWhitespace ++ (o :: r3) := by
          conv_lhs => rw [← List.takeWhile_append_dropWhile Char.isWhitespace
            (l.dropWhile Char.isDigit)]
          rw [hr]
        have e3 : r3 = r3.takeWhile Char.isWhitespace ++
            r3.dropWhile Char.isWhitespace :=
          (List.takeWhile_append_dropWhile _ _).symm
        have e4 : r3.dropWhile Char.isWhitespace =
            (r3.dropWhile Char.isWhitespace).takeWhile Char.isDigit ++
            (r3.dropWhile Char.isWhitespace).dropWhile Char.isDigit :=
          (List.takeWhile_append_dropWhile _ _).symm
        conv_lhs => rw [e1, e2, e3, e4]
        simp [List.append_assoc]
      · simpa using hd1
      · exact fun c hc => List.mem_takeWhile_imp hc
      · exact fun c hc => List.mem_takeWhile_imp hc
      · exact fun c hc => List.mem_takeWhile_imp hc
      · simpa using h.2
      · exact fun c hc => List.mem_takeWhile_imp hc

/-- Completeness of the head-anchored pattern attempt: a declarative
decomposition starting at the head makes the attempt succeed (the greedy
digit and whitespace runs of the attempt stop exactly at the decomposition
boundaries, because digits, whitespace and operators are pairwise
disjoint character classes). -/
theorem tryPatHere_complete (d1 w1 w2 d2 r : List Char) (o : Char)
    (hd1 : d1 ≠ []) (hd1d : ∀ c ∈ d1, c.isDigit = true)
    (hw1 : ∀ c ∈ w1, c.isWhitespace = true)
    (ho : isOpB o = true)
    (hw2 : ∀ c ∈ w2, c.isWhitespace = true)
    (hd2 : d2 ≠ []) (hd2d : ∀ c ∈ d2, c.isDigit = true) :
    tryPatHere (d1 ++ w1 ++ o :: (w2 ++ d2 ++ r)) = true := by
  have hstop1 : (w1 ++ o :: (w2 ++ d2 ++ r)).takeWhile Char.isDigit = [] := by
    cases w1 with
    | nil => simp [List.takeWhile_cons, op_not_digit o ho]
    | cons a as =>
      simp [List.takeWhile_cons,
        ws_not_digit a (hw1 a (List.mem_cons_self a as))]
  have hstop1' : (w1 ++ o :: (w2 ++ d2 ++ r)).dropWhile Char.isDigit =
      w1 ++ o :: (w2 ++ d2 ++ r) := by
    cases w1 with
    | nil => simp [List.dropWhile_cons, op_not_digit o ho]
    | cons a as =>
      simp [List.dropWhile_cons,
        ws_not_digit a (hw1 a (List.mem_cons_self a as))]
  have htake : (d1 ++ w1 ++ o :: (w2 ++ d2 ++ r)).takeWhile Char.isDigit = d1 := by
    rw [List.append_assoc, takeWhile_append_of_all Char.isDigit d1 _ hd1d,
      hstop1, List.append_nil]
  have hdrop : (d1 ++ w1 ++ o :: (w2 ++ d2 ++ r)).dropWhile Char.isDigit =
      w1 ++ o :: (w2 ++ d2 ++ r) := by
    rw [List.append_assoc, dropWhile_append_of_all Char.isDigit d1 _ hd1d,
      hstop1']
  have hdropws : (w1 ++ o :: (w2 ++ d2 ++ r)).dropWhile Char.isWhitespace =
      o :: (w2 ++ d2 ++ r) := by
    rw [dropWhile_append_of_all Char.isWhitespace w1 _ hw1,
      List.dropWhile_cons, op_not_ws o ho]
    simp
  obtain ⟨dh, dt, rfl⟩ : ∃ dh dt, d2 = dh :: dt := by
    cases d2 with
    | nil => exact absurd rfl hd2
    | cons dh dt => exact ⟨dh, dt, rfl⟩
  have hdh : dh.isDigit = true := hd2d dh (List.mem_cons_self dh dt)
  have hdhw : dh.isWhitespace = false := by
    by_contra hc
    rw [Bool.not_eq_false] at hc
    rw [ws_not_digit dh hc] at hdh
    exact Bool.false_ne_true hdh
  have hdropws2 : (w2 ++ (dh :: dt) ++ r).dropWhile Char.isWhitespace =
      (dh :: dt) ++ r := by
    rw [List.append_assoc, dropWhile_append_of_all Char.isWhitespace w2 _ hw2]
    simp [List.dropWhile_cons, hdhw]
  have htake2 : ((dh :: dt) ++ r).takeWhile Char.isDigit =
      (dh :: dt) ++ r.takeWhile Char.isDigit :=
    takeWhile_append_of_all Char.isDigit _ _ hd2d
  unfold tryPatHere
  rw [htake, hdrop, hdropws]
  simp only [List.isEmpty_eq_true, hd1, if_false, hdropws2, htake2]
  simp [ho]

/-- The unanchored leftmost scan finds the numeric-operator pattern exactly
when the declarative pattern holds somewhere in the list. -/
theorem hasArithScan_iff (l : List Char) :
    hasArithScan l = true ↔ ArithPat l := by
  induction l with
  | nil =>
    simp only [hasArithScan, ArithPat]
    constructor
    · intro h; exact absurd h (by simp)
    · rintro ⟨p, d1, w1, o, w2, d2, r, hl, hd1, -⟩
      have := congrArg List.length hl
      simp [List.length_append] at this
      omega
  | cons c cr ih =>
    simp only [hasArithScan, Bool.or_eq_true]
    constructor
    · rintro (h | h)
      · obtain ⟨d1, w1, o, w2, d2, r, hl, props⟩ := tryPatHere_sound _ h
        exact ⟨[], d1, w1, o, w2, d2, r, by simpa using hl, props⟩
      · obtain ⟨p, d1, w1, o, w2, d2, r, hl, props⟩ := ih.mp h
        exact ⟨c :: p, d1, w1, o, w2, d2, r, by simp [hl], props⟩
    · rintro ⟨p, d1, w1, o, w2, d2, r, hl, hd1, hd1d, hw1, ho, hw2, hd2, hd2d⟩
      cases p with
      | nil =>
        left
        have hl' : c :: cr = d1 ++ w1 ++ o :: (w2 ++ d2 ++ r) := by
          simpa using hl
        rw [hl']
        exact tryPatHere_complete d1 w1 w2 d2 r o hd1 hd1d hw1 ho hw2 hd2 hd2d
      | cons p0 pt =>
        right
        simp only [List.cons_append, List.append_assoc, List.cons.injEq] at hl
        exact ih.mpr ⟨pt, d1, w1, o, w2, d2, r,
          by simp [hl.2, List.append_assoc], hd1, hd1d,
          hw1, ho, hw2, hd2, hd2d⟩

/-- A successful `startsWithL` is exactly a prefix decomposition. -/
theorem startsWithL_iff (n h : List Char) :
    startsWithL n h = true ↔ ∃ t, h = n ++ t := by
  induction n generalizing h with
  | nil => simp [startsWithL]
  | cons a as ih =>
    cases h with
    | nil =>
      simp only [startsWithL, List.cons_append]
      constructor
      · intro hc; exact absurd hc (by simp)
      · rintro ⟨t, ht⟩; exact absurd ht (by simp)
    | cons b bs =>
      simp only [startsWithL, Bool.and_eq_true, beq_iff_eq, ih bs,
        List.cons_append, List.cons.injEq]
      constructor
      · rintro ⟨rfl, t, rfl⟩; exact ⟨t, rfl, rfl⟩
      · rintro ⟨t, rfl, rfl⟩; exact ⟨rfl, t, rfl⟩

/-- A successful `containsSub` is exactly an infix decomposition. -/
theorem containsSub_iff (n h : List Char) :
    containsSub n h = true ↔ ∃ pre post, h = pre ++ n ++ post := by
  induction h with
  | nil =>
    simp only [containsSub, startsWithL_iff]
    constructor
    · rintro ⟨t, ht⟩; exact ⟨[], t, by simpa using ht⟩
    · rintro ⟨pre, post, hp⟩
      exact ⟨post, by cases pre <;> simp_all⟩
  | cons b bs ih =>
    simp only [containsSub, Bool.or_eq_true, startsWithL_iff, ih]
    constructor
    · rintro (⟨t, ht⟩ | ⟨pre, post, hp⟩)
      · exact ⟨[], t, by simpa using ht⟩
      · exact ⟨b :: pre, post, by simp [hp]⟩
    · rintro ⟨pre, post, hp⟩
      cases pre with
      | nil => exact Or.inl ⟨post, by simpa using hp⟩
      | cons p0 pt =>
        right
        rw [List.cons_append, List.cons_append, List.cons.injEq] at hp
        exact ⟨pt, post, hp.2⟩

/-- C8. `isMathQuery` returns true exactly when the lowercased text
contains one of the fixed keywords, or the raw text matches the
numeric-operator pattern (two digit runs separated by one of `+ - * / ^ %`
with optional surrounding whitespace); in particular
`isMathQuery "what is 7+5" = true` and `isMathQuery "hello there" = false`. -/
theorem isMathQuery_spec :
    (∀ t : String,
      (isMathQuery t = true ↔
        ((∃ k ∈ mathKeywords, ∃ pre post,
          (lowerStr t).data = pre ++ k.data ++ post) ∨ ArithPat t.data))) ∧
    isMathQuery "what is 7+5" = true ∧
    isMathQuery "hello there" = false := by
  refine ⟨fun t => ?_, by decide, by decide⟩
  unfold isMathQuery
  simp only [Bool.or_eq_true, List.any_eq_true, containsSub_iff,
    hasArithScan_iff]
